import Mathlib

/-!
Verification of the university management system
(`src/university_management_system.py`).

Shallow embedding conventions:
* Python `float` grades are modelled by `Rat` (all grades in play, such as
  3.0 and 4.0, are exactly representable, and the arithmetic mean of a small
  grade mapping incurs no rounding).
* Python `dict` (which preserves insertion order, appends new keys at the
  end, and replaces the value in place on an existing key) is modelled by an
  association list `List (String × α)` with the operations `dictLookup`,
  `dictInsert`, `dictPop` below.
* Mutable objects referenced by identity (students and courses) live in
  heaps `Nat → Student` / `Nat → Course` inside a `World`; a `Nat` is an
  object reference.  Methods become `World → World` functions.
* `Student.update` (which prints a notification for the student) is modelled
  by appending `(studentRef, message)` to `World.log`; a bare `print(...)`
  of an informational message is modelled by appending to `World.console`.
* The f-string messages are modelled by the constructors of `Msg` and
  `ConsoleMsg`, carrying the interpolated data.
-/

/-- Python `float` grades, modelled as rationals. -/
abbrev Grade := Rat

/-- The GPA strategies of the program; only `RegularGPA` exists. -/
inductive GPAStrategyT where
  | regular
deriving DecidableEq

/-- The f-string notification messages delivered via `Observer.update`:
`"Enrolled in {course_name}"`, `"Dropped from {course_name}"`,
`"Grade {grade} assigned for {course_code}"`. -/
inductive Msg where
  | enrolledIn (course_name : String)
  | droppedFrom (course_name : String)
  | gradeAssigned (grade : Grade) (course_code : String)
deriving DecidableEq

/-- The informational `print` messages: `"Already enrolled in this course"`,
`"Course not found"`, `"Student not enrolled in this course"`. -/
inductive ConsoleMsg where
  | alreadyEnrolled
  | courseNotFound
  | notEnrolled
deriving DecidableEq

/-- The keys of a Python dict, in insertion order. -/
def dictKeys {α : Type} (d : List (String × α)) : List String :=
  d.map Prod.fst

/-- Python dict lookup `d[k]` / `k in d` support: first entry whose key
matches. -/
def dictLookup {α : Type} : List (String × α) → String → Option α
  | [], _ => none
  | (k, v) :: rest, key => if k = key then some v else dictLookup rest key

/-- Python dict assignment `d[k] = v`: replace the value in place if the key
is present, else append the new entry at the end. -/
def dictInsert {α : Type} : List (String × α) → String → α → List (String × α)
  | [], key, v => [(key, v)]
  | (k, w) :: rest, key, v =>
      if k = key then (key, v) :: rest else (k, w) :: dictInsert rest key v

/-- Python `d.pop(k, ...)`: remove the entry with key `k` if present. -/
def dictPop {α : Type} : List (String × α) → String → List (String × α)
  | [], _ => []
  | (k, v) :: rest, key => if k = key then rest else (k, v) :: dictPop rest key

/-- `RegularGPA.calculate`: `0.0` on an empty mapping, else
`sum(grades.values()) / len(grades)`. -/
def RegularGPA_calculate (grades : List (String × Grade)) : Grade :=
  if grades = [] then 0 else (grades.map Prod.snd).sum / (grades.length : Grade)

/-- Dispatch of `gpa_strategy.calculate(grades)` over the strategy object. -/
def GPAStrategyT.calculate : GPAStrategyT → List (String × Grade) → Grade
  | .regular, g => RegularGPA_calculate g

-- Basic lemmas about the dict operations.

@[simp] theorem dictKeys_nil {α : Type} : dictKeys ([] : List (String × α)) = [] := rfl

@[simp] theorem dictKeys_cons {α : Type} (e : String × α) (d : List (String × α)) :
    dictKeys (e :: d) = e.1 :: dictKeys d := rfl

theorem mem_keys_of_mem {α : Type} (d : List (String × α)) (e : String × α)
    (h : e ∈ d) : e.1 ∈ dictKeys d :=
  List.mem_map_of_mem Prod.fst h

theorem dictLookup_insert_self {α : Type} (d : List (String × α)) (k : String) (v : α) :
    dictLookup (dictInsert d k v) k = some v := by
  induction d with
  | nil => simp [dictInsert, dictLookup]
  | cons e rest ih =>
      obtain ⟨k', v'⟩ := e
      by_cases h : k' = k <;> simp [dictInsert, dictLookup, h, ih]

theorem dictLookup_insert_ne {α : Type} (d : List (String × α)) (k key : String) (v : α)
    (h : key ≠ k) : dictLookup (dictInsert d k v) key = dictLookup d key := by
  induction d with
  | nil => simp [dictInsert, dictLookup, Ne.symm h]
  | cons e rest ih =>
      obtain ⟨k', v'⟩ := e
      by_cases hk : k' = k
      · subst hk
        simp [dictInsert, dictLookup, Ne.symm h]
      · by_cases hk2 : k' = key <;> simp [dictInsert, dictLookup, hk, hk2, h, ih]

theorem dictInsert_length_of_mem {α : Type} (d : List (String × α)) (k : String) (v : α)
    (h : k ∈ dictKeys d) : (dictInsert d k v).length = d.length := by
  induction d with
  | nil => simp [dictKeys] at h
  | cons e rest ih =>
      obtain ⟨k', v'⟩ := e
      by_cases hk : k' = k
      · simp [dictInsert, hk]
      · simp [dictKeys] at h
        rcases h with h | h
        · exact absurd h.symm hk
        · simp [dictInsert, hk, ih (by simpa [dictKeys] using h)]

theorem dictInsert_of_not_mem {α : Type} (d : List (String × α)) (k : String) (v : α)
    (h : k ∉ dictKeys d) : dictInsert d k v = d ++ [(k, v)] := by
  induction d with
  | nil => simp [dictInsert]
  | cons e rest ih =>
      obtain ⟨k', v'⟩ := e
      rw [dictKeys_cons, List.mem_cons] at h
      push_neg at h
      have h1 : k' ≠ k := Ne.symm h.1
      simp [dictInsert, h1, ih h.2]

theorem dictLookup_mem {α : Type} (d : List (String × α)) (key : String) (a : α)
    (h : dictLookup d key = some a) : (key, a) ∈ d := by
  induction d with
  | nil => simp [dictLookup] at h
  | cons e rest ih =>
      obtain ⟨k', v'⟩ := e
      by_cases hk : k' = key
      · subst hk
        simp [dictLookup] at h
        simp [h]
      · simp [dictLookup, hk] at h
        exact List.mem_cons_of_mem _ (ih h)

theorem dictPop_subset {α : Type} (d : List (String × α)) (key : String) (e : String × α)
    (h : e ∈ dictPop d key) : e ∈ d := by
  induction d with
  | nil => simp [dictPop] at h
  | cons f rest ih =>
      obtain ⟨k', v'⟩ := f
      by_cases hk : k' = key
      · simp [dictPop, hk] at h
        exact List.mem_cons_of_mem _ h
      · simp [dictPop, hk] at h
        rcases h with h | h
        · simp [h]
        · exact List.mem_cons_of_mem _ (ih h)

theorem dictKeys_pop_sublist {α : Type} (d : List (String × α)) (key : String) :
    (dictKeys (dictPop d key)).Sublist (dictKeys d) := by
  induction d with
  | nil => simp [dictPop]
  | cons f rest ih =>
      obtain ⟨k', v'⟩ := f
      by_cases hk : k' = key
      · simp only [dictPop, if_pos hk, dictKeys_cons]
        exact List.sublist_cons_self _ _
      · simp only [dictPop, if_neg hk, dictKeys_cons]
        exact List.Sublist.cons₂ k' ih

theorem mem_dictPop_of_ne {α : Type} (d : List (String × α)) (key : String) (e : String × α)
    (he : e ∈ d) (hne : e.1 ≠ key) : e ∈ dictPop d key := by
  induction d with
  | nil => simp at he
  | cons f rest ih =>
      obtain ⟨k', v'⟩ := f
      rcases List.mem_cons.mp he with h | h
      · have : k' ≠ key := by
          subst h
          exact hne
        simp [dictPop, this, h]
      · by_cases hk : k' = key
        · simpa [dictPop, hk] using h
        · simp [dictPop, hk]
          exact Or.inr (ih h)

theorem mem_dictPop_ne_key {α : Type} (d : List (String × α)) (key : String) (e : String × α)
    (hnd : (dictKeys d).Nodup) (h : e ∈ dictPop d key) : e.1 ≠ key := by
  induction d with
  | nil => simp [dictPop] at h
  | cons f rest ih =>
      obtain ⟨k', v'⟩ := f
      rw [dictKeys_cons, List.nodup_cons] at hnd
      by_cases hk : k' = key
      · simp only [dictPop, if_pos hk] at h
        intro hkey
        apply hnd.1
        rw [hk, ← hkey]
        exact mem_keys_of_mem rest e h
      · simp only [dictPop, if_neg hk] at h
        rcases List.mem_cons.mp h with h | h
        · rw [h]
          exact hk
        · exact ih hnd.2 h

theorem dictKeys_nodup_value_eq {α : Type} (d : List (String × α)) (k : String) (v₁ v₂ : α)
    (hnd : (dictKeys d).Nodup) (h₁ : (k, v₁) ∈ d) (h₂ : (k, v₂) ∈ d) : v₁ = v₂ := by
  induction d with
  | nil => simp at h₁
  | cons f rest ih =>
      obtain ⟨k', v'⟩ := f
      rw [dictKeys_cons, List.nodup_cons] at hnd
      rcases List.mem_cons.mp h₁ with h₁ | h₁ <;> rcases List.mem_cons.mp h₂ with h₂ | h₂
      · rw [Prod.mk.injEq] at h₁ h₂
        rw [h₁.2, h₂.2]
      · exfalso
        apply hnd.1
        rw [Prod.mk.injEq] at h₁
        rw [← h₁.1]
        exact mem_keys_of_mem rest (k, v₂) h₂
      · exfalso
        apply hnd.1
        rw [Prod.mk.injEq] at h₂
        rw [← h₂.1]
        exact mem_keys_of_mem rest (k, v₁) h₁
      · exact ih hnd.2 h₁ h₂

-- The data model, translated from the source classes.

/-- `class Course`: `course_code`, `course_name`, `credit`, roster `students`
(a Python list of student references) and `observers` (subscriber
references). -/
structure Course where
  course_code : String
  course_name : String
  credit : Int
  students : List Nat
  observers : List Nat
deriving DecidableEq

/-- `class Student(Person, Observer)`: `Person` fields plus the
enrolled-courses dict `courses` (course code → course reference), the
`grades` dict (course code → grade) and the GPA strategy object. -/
structure Student where
  name : String
  person_id : String
  email : String
  courses : List (String × Nat)
  grades : List (String × Grade)
  gpa_strategy : GPAStrategyT
deriving DecidableEq

/-- `class Teacher(Person)`: `Person` fields plus the list of assigned
course references. -/
structure Teacher where
  name : String
  person_id : String
  email : String
  courses : List Nat
deriving DecidableEq

/-- `class Authority(Person)`: just the `Person` fields. -/
structure Authority where
  name : String
  person_id : String
  email : String
deriving DecidableEq

/-- The mutable object heap and the observable output of a run: `students`
and `courses` map object references to current object states, `log` records
the notifications delivered through `update` (in order, tagged with the
receiving student's reference), and `console` records the informational
`print` messages. -/
structure World where
  students : Nat → Student
  courses : Nat → Course
  log : List (Nat × Msg)
  console : List ConsoleMsg

/-- Pointwise heap update (assignment through an object reference). -/
def updateFn {α : Type} (f : Nat → α) (i : Nat) (v : α) : Nat → α :=
  fun j => if j = i then v else f j

@[simp] theorem updateFn_same {α : Type} (f : Nat → α) (i : Nat) (v : α) :
    updateFn f i v i = v := by
  simp [updateFn]

theorem updateFn_ne {α : Type} (f : Nat → α) (i j : Nat) (v : α) (h : j ≠ i) :
    updateFn f i v j = f j := by
  simp [updateFn, h]

@[simp] theorem updateFn_apply {α : Type} (f : Nat → α) (i j : Nat) (v : α) :
    updateFn f i v j = if j = i then v else f j := rfl

-- Course methods (`self` is the course reference `c`).

/-- `Course.attach(observer)`: append the observer if not already
subscribed. -/
def Course.attach (w : World) (c : Nat) (obs : Nat) : World :=
  if obs ∈ (w.courses c).observers then w
  else
    let crs := w.courses c
    { w with courses := updateFn w.courses c { crs with observers := crs.observers ++ [obs] } }

/-- `Course.notify(message)`: call `update(message)` on every observer in
subscription order. -/
def Course.notify (w : World) (c : Nat) (m : Msg) : World :=
  { w with log := w.log ++ ((w.courses c).observers.map fun obs => (obs, m)) }

/-- `Course.add_student(student)`: if the student is not on the roster,
append to the roster, attach as observer, and notify
`"Enrolled in {course_name}"`. -/
def Course.add_student (w : World) (c : Nat) (s : Nat) : World :=
  if s ∈ (w.courses c).students then w
  else
    let crs := w.courses c
    let w1 := { w with courses := updateFn w.courses c { crs with students := crs.students ++ [s] } }
    Course.notify (Course.attach w1 c s) c (Msg.enrolledIn crs.course_name)

/-- `Course.remove_student(student)`: if the student is on the roster,
remove the first occurrence (`list.remove`) and notify
`"Dropped from {course_name}"`; the observer list is not touched. -/
def Course.remove_student (w : World) (c : Nat) (s : Nat) : World :=
  if s ∈ (w.courses c).students then
    let crs := w.courses c
    let w1 := { w with courses := updateFn w.courses c { crs with students := crs.students.erase s } }
    Course.notify w1 c (Msg.droppedFrom crs.course_name)
  else w

-- Student methods (`self` is the student reference `s`).

/-- `Student.add_course(course)`: if the course's code is not yet a key of
the student's dict, record `courses[course.course_code] = course` and
delegate to `Course.add_student`; otherwise print
`"Already enrolled in this course"`. -/
def Student.add_course (w : World) (s : Nat) (c : Nat) : World :=
  if (w.courses c).course_code ∉ dictKeys (w.students s).courses then
    let stu := w.students s
    let stu2 := { stu with courses := dictInsert stu.courses (w.courses c).course_code c }
    let w1 := { w with students := updateFn w.students s stu2 }
    Course.add_student w1 c s
  else { w with console := w.console ++ [ConsoleMsg.alreadyEnrolled] }

/-- `Student.drop_course(course_code)`: if the code is a key, pop the entry
and delegate to `Course.remove_student` on the popped course; otherwise
print `"Course not found"`. -/
def Student.drop_course (w : World) (s : Nat) (course_code : String) : World :=
  match dictLookup (w.students s).courses course_code with
  | some c =>
      let stu := w.students s
      let stu2 := { stu with courses := dictPop stu.courses course_code }
      let w1 := { w with students := updateFn w.students s stu2 }
      Course.remove_student w1 c s
  | none => { w with console := w.console ++ [ConsoleMsg.courseNotFound] }

/-- `Student.calculate_gpa()`: delegate to the strategy over the grades
dict. -/
def Student.calculate_gpa (w : World) (s : Nat) : Grade :=
  (w.students s).gpa_strategy.calculate (w.students s).grades

-- Teacher methods.

/-- `Teacher.assign_course(course)`: append to the teacher's course list
(no uniqueness check). -/
def Teacher.assign_course (t : Teacher) (c : Nat) : Teacher :=
  { t with courses := t.courses ++ [c] }

/-- `Teacher.assign_grade(student, course_code, grade)`: if `course_code`
is a key of the student's enrolled-courses dict, set
`student.grades[course_code] = grade` and call
`student.update("Grade {grade} assigned for {course_code}")`; otherwise
print `"Student not enrolled in this course"`.  (`self` is unused by the
source method.) -/
def Teacher.assign_grade (w : World) (s : Nat) (course_code : String) (grade : Grade) : World :=
  if course_code ∈ dictKeys (w.students s).courses then
    let stu := w.students s
    { w with
      students := updateFn w.students s
        { stu with grades := dictInsert stu.grades course_code grade },
      log := w.log ++ [(s, Msg.gradeAssigned grade course_code)] }
  else { w with console := w.console ++ [ConsoleMsg.notEnrolled] }

-- Factory pattern.

/-- The possible results of `UserFactory.create_user`. -/
inductive User where
  | student (s : Student)
  | teacher (t : Teacher)
  | authority (a : Authority)
deriving DecidableEq

/-- `UserFactory.create_user(role, name, id, email)`: dispatch on the role
tag; `"student"` gets a fresh `Student` with a `RegularGPA()` strategy,
`"teacher"` a `Teacher`, `"authority"` an `Authority`; any other tag raises
`ValueError("Invalid user role")`, modelled as `Except.error`. -/
def UserFactory.create_user (role name id_ email : String) : Except String User :=
  if role = "student" then
    Except.ok (User.student ⟨name, id_, email, [], [], GPAStrategyT.regular⟩)
  else if role = "teacher" then
    Except.ok (User.teacher ⟨name, id_, email, []⟩)
  else if role = "authority" then
    Except.ok (User.authority ⟨name, id_, email⟩)
  else
    Except.error "Invalid user role"

/-- `Authority.create_course(code, name, credit)`: pure construction of a
`Course` with empty roster and subscriber list; no registration happens. -/
def Authority.create_course (code name : String) (credit : Int) : Course :=
  ⟨code, name, credit, [], []⟩

-- Singleton pattern: the university registry.

/-- `class UniversitySystem`: the three registry dicts.  The source stores
object references as dict values; here a value is the `Nat` reference of
the stored entity.  Each `add` keys the entry by the entity's `person_id`
(or `course_code`), passed alongside the reference. -/
structure UniversitySystem where
  students : List (String × Nat)
  teachers : List (String × Nat)
  courses : List (String × Nat)
deriving DecidableEq

/-- `UniversitySystem.add_student`: `self.students[student.person_id] = student`. -/
def UniversitySystem.add_student (r : UniversitySystem) (person_id : String) (sref : Nat) :
    UniversitySystem :=
  { r with students := dictInsert r.students person_id sref }

/-- `UniversitySystem.remove_student`: `self.students.pop(student_id, None)`. -/
def UniversitySystem.remove_student (r : UniversitySystem) (student_id : String) :
    UniversitySystem :=
  { r with students := dictPop r.students student_id }

/-- `UniversitySystem.add_teacher`: `self.teachers[teacher.person_id] = teacher`. -/
def UniversitySystem.add_teacher (r : UniversitySystem) (person_id : String) (tref : Nat) :
    UniversitySystem :=
  { r with teachers := dictInsert r.teachers person_id tref }

/-- `UniversitySystem.add_course`: `self.courses[course.course_code] = course`. -/
def UniversitySystem.add_course (r : UniversitySystem) (course_code : String) (cref : Nat) :
    UniversitySystem :=
  { r with courses := dictInsert r.courses course_code cref }

/-- The registry with the three empty dicts, as initialized by the first
`__new__`. -/
def UniversitySystem.empty : UniversitySystem := ⟨[], [], []⟩

/-- Process-wide state backing the singleton: a heap of
`UniversitySystem` objects (addressed by index) and the class attribute
`_instance` (`none` = `None`). -/
structure PState where
  heap : List UniversitySystem
  instSlot : Option Nat

/-- Well-formedness of the process state: the class attribute, when set,
points into the heap. -/
def PState.wf (p : PState) : Prop :=
  ∀ i, p.instSlot = some i → i < p.heap.length

/-- `UniversitySystem.__new__`: on the first call allocate a fresh instance
with the three empty dicts and remember it in `_instance`; on every later
call return the remembered instance.  Returns the reference of the
returned object together with the new process state. -/
def UniversitySystem.new : PState → Nat × PState
  | ⟨heap, none⟩ => (heap.length, ⟨heap ++ [UniversitySystem.empty], some heap.length⟩)
  | ⟨heap, some i⟩ => (i, ⟨heap, some i⟩)

/-- Dereference a registry object. -/
def PState.regAt (p : PState) (i : Nat) : UniversitySystem :=
  p.heap.getD i UniversitySystem.empty

/-- Assign through a registry reference. -/
def PState.setReg (p : PState) (i : Nat) (r : UniversitySystem) : PState :=
  { p with heap := p.heap.set i r }

-- The demonstration scenario of the `__main__` driver (the part claims
-- C2 and C3 are about): one student, one course with actual code
-- "CSE110", enrollment, then a grade assigned under code "CSE101".

/-- The student `"MS Dhoni"` as created by the factory (empty courses and
grades, regular GPA strategy). -/
def demoStudent : Student :=
  ⟨"MS Dhoni", "S01", "msdhoni7@uni.edu", [], [], GPAStrategyT.regular⟩

/-- The course created by `admin.create_course("CSE110", "Intro to Programming", 3)`. -/
def demoCourse : Course := Authority.create_course "CSE110" "Intro to Programming" 3

/-- Initial demo world: student object at reference 0, course object at
reference 0, nothing printed yet. -/
def demoW : World := ⟨fun _ => demoStudent, fun _ => demoCourse, [], []⟩

/-- After `student1.add_course(cse101)` (the course's code is "CSE110"). -/
def demoW1 : World := Student.add_course demoW 0 0

/-- After `teacher1.assign_grade(student1, "CSE101", 4.0)`. -/
def demoW2 : World := Teacher.assign_grade demoW1 0 "CSE101" 4

-- Bidirectional enrollment consistency (claim C5).

/-- Membership agreement between student `s` and every course, plus the
bookkeeping invariants that make it inductive: the student's dict has
no duplicate keys, every entry is keyed by the stored course's own code and
is matched by roster membership, every roster containing `s` is matched by
a dict entry, and no roster has duplicates. -/
def Consistent (stu : Nat → Student) (crs : Nat → Course) (s : Nat) : Prop :=
  (dictKeys (stu s).courses).Nodup ∧
  (∀ e ∈ (stu s).courses, e.1 = (crs e.2).course_code ∧ s ∈ (crs e.2).students) ∧
  (∀ c : Nat, s ∈ (crs c).students → ((crs c).course_code, c) ∈ (stu s).courses) ∧
  (∀ c : Nat, (crs c).students.Nodup)

/-- `Consistent` read off a whole world. -/
def ConsistentW (w : World) (s : Nat) : Prop :=
  Consistent w.students w.courses s

-- Characterization lemmas for the operations.

theorem attach_students (w : World) (c obs : Nat) :
    (Course.attach w c obs).students = w.students := by
  unfold Course.attach
  by_cases h : obs ∈ (w.courses c).observers <;> simp [h]

theorem attach_log (w : World) (c obs : Nat) :
    (Course.attach w c obs).log = w.log := by
  unfold Course.attach
  by_cases h : obs ∈ (w.courses c).observers <;> simp [h]

theorem attach_console (w : World) (c obs : Nat) :
    (Course.attach w c obs).console = w.console := by
  unfold Course.attach
  by_cases h : obs ∈ (w.courses c).observers <;> simp [h]

theorem attach_roster (w : World) (c obs c' : Nat) :
    ((Course.attach w c obs).courses c').students = (w.courses c').students := by
  unfold Course.attach
  by_cases h : obs ∈ (w.courses c).observers
  · simp [h]
  · by_cases hc : c' = c <;> simp [h, hc, updateFn]

theorem attach_code (w : World) (c obs c' : Nat) :
    ((Course.attach w c obs).courses c').course_code = (w.courses c').course_code := by
  unfold Course.attach
  by_cases h : obs ∈ (w.courses c).observers
  · simp [h]
  · by_cases hc : c' = c <;> simp [h, hc, updateFn]

theorem attach_observers (w : World) (c obs : Nat) :
    ((Course.attach w c obs).courses c).observers =
      (if obs ∈ (w.courses c).observers then (w.courses c).observers
       else (w.courses c).observers ++ [obs]) := by
  unfold Course.attach
  by_cases h : obs ∈ (w.courses c).observers <;> simp [h, updateFn]

theorem notify_students (w : World) (c : Nat) (m : Msg) :
    (Course.notify w c m).students = w.students := rfl

theorem notify_courses (w : World) (c : Nat) (m : Msg) :
    (Course.notify w c m).courses = w.courses := rfl

theorem notify_console (w : World) (c : Nat) (m : Msg) :
    (Course.notify w c m).console = w.console := rfl

theorem notify_log (w : World) (c : Nat) (m : Msg) :
    (Course.notify w c m).log =
      w.log ++ ((w.courses c).observers.map fun obs => (obs, m)) := rfl

theorem courseAdd_of_mem (w : World) (c s : Nat) (h : s ∈ (w.courses c).students) :
    Course.add_student w c s = w := by
  simp [Course.add_student, h]

theorem courseAdd_students (w : World) (c s : Nat) :
    (Course.add_student w c s).students = w.students := by
  unfold Course.add_student
  by_cases h : s ∈ (w.courses c).students
  · simp [h]
  · simp only [h, if_neg, not_false_iff]
    rw [notify_students, attach_students]

theorem courseAdd_console (w : World) (c s : Nat) :
    (Course.add_student w c s).console = w.console := by
  unfold Course.add_student
  by_cases h : s ∈ (w.courses c).students
  · simp [h]
  · simp only [h, if_neg, not_false_iff]
    rw [notify_console, attach_console]

theorem courseAdd_roster_self (w : World) (c s : Nat) (h : s ∉ (w.courses c).students) :
    ((Course.add_student w c s).courses c).students = (w.courses c).students ++ [s] := by
  unfold Course.add_student
  simp only [h, if_neg, not_false_iff]
  rw [notify_courses, attach_roster]
  simp [updateFn]

theorem courseAdd_roster_other (w : World) (c s c' : Nat) (h : c' ≠ c) :
    ((Course.add_student w c s).courses c').students = (w.courses c').students := by
  unfold Course.add_student
  by_cases hm : s ∈ (w.courses c).students
  · simp [hm]
  · simp only [hm, if_neg, not_false_iff]
    rw [notify_courses, attach_roster]
    simp [updateFn, h]

theorem courseAdd_code (w : World) (c s c' : Nat) :
    ((Course.add_student w c s).courses c').course_code = (w.courses c').course_code := by
  unfold Course.add_student
  by_cases hm : s ∈ (w.courses c).students
  · simp [hm]
  · simp only [hm, if_neg, not_false_iff]
    rw [notify_courses, attach_code]
    by_cases hc : c' = c <;> simp [hc, updateFn]

theorem courseRemove_of_not_mem (w : World) (c s : Nat) (h : s ∉ (w.courses c).students) :
    Course.remove_student w c s = w := by
  simp [Course.remove_student, h]

theorem courseRemove_students (w : World) (c s : Nat) :
    (Course.remove_student w c s).students = w.students := by
  unfold Course.remove_student
  by_cases h : s ∈ (w.courses c).students <;> simp [h, notify_students]

theorem courseRemove_console (w : World) (c s : Nat) :
    (Course.remove_student w c s).console = w.console := by
  unfold Course.remove_student
  by_cases h : s ∈ (w.courses c).students <;> simp [h, notify_console]

theorem courseRemove_roster_self (w : World) (c s : Nat) (h : s ∈ (w.courses c).students) :
    ((Course.remove_student w c s).courses c).students = (w.courses c).students.erase s := by
  unfold Course.remove_student
  simp [h, notify_courses, updateFn]

theorem courseRemove_roster_other (w : World) (c s c' : Nat) (h : c' ≠ c) :
    (Course.remove_student w c s).courses c' = w.courses c' := by
  unfold Course.remove_student
  by_cases hm : s ∈ (w.courses c).students
  · simp [hm, notify_courses, updateFn, h]
  · simp [hm]

theorem courseRemove_code (w : World) (c s c' : Nat) :
    ((Course.remove_student w c s).courses c').course_code = (w.courses c').course_code := by
  unfold Course.remove_student
  by_cases hm : s ∈ (w.courses c).students
  · by_cases hc : c' = c <;> simp [hm, notify_courses, updateFn, hc]
  · simp [hm]

theorem courseRemove_observers (w : World) (c s c' : Nat) :
    ((Course.remove_student w c s).courses c').observers = (w.courses c').observers := by
  unfold Course.remove_student
  by_cases hm : s ∈ (w.courses c).students
  · by_cases hc : c' = c <;> simp [hm, notify_courses, updateFn, hc]
  · simp [hm]

-- Claim theorems.

/-- C1: `RegularGPA.calculate` returns exactly 0.0 on an empty grade
mapping and otherwise the unweighted arithmetic mean of the values (the
sum of the values divided by the number of entries, with no credit
weighting); in particular it maps `{a: 3.0, b: 4.0}` to 3.5 (= 7/2).  The
operation is total by construction: `RegularGPA_calculate` is a total
function with no error outcome. -/
theorem C1_regular_gpa_mean (g : List (String × Grade)) (h : g ≠ []) :
    RegularGPA_calculate [] = 0 ∧
    RegularGPA_calculate g = (g.map Prod.snd).sum / (g.length : Grade) ∧
    RegularGPA_calculate [("a", (3 : Grade)), ("b", 4)] = 7 / 2 := by
  refine ⟨by rw [RegularGPA_calculate, if_pos rfl],
          by rw [RegularGPA_calculate, if_neg h], ?_⟩
  rw [RegularGPA_calculate, if_neg (by simp)]
  norm_num

/-- Witness for C1 at the one-entry grade mapping `{c: 2.0}`. -/
theorem C1_regular_gpa_mean_witness :
    RegularGPA_calculate [("c", (2 : Grade))] =
      (([("c", (2 : Grade))].map Prod.snd).sum /
        (([("c", (2 : Grade))] : List (String × Grade)).length : Grade)) :=
  (C1_regular_gpa_mean [("c", (2 : Grade))] (by simp)).2.1

/-- C7: `UserFactory.create_user` returns a `Student` carrying the default
`RegularGPA` strategy for role "student", a `Teacher` for "teacher", an
`Authority` for "authority", and raises the invalid-argument error
(`ValueError("Invalid user role")`) for every role outside that closed set
— the program's only hard failure (every other modelled operation is a
total function). -/
theorem C7_create_user_dispatch (role name id_ email : String)
    (h : role ∉ (["student", "teacher", "authority"] : List String)) :
    UserFactory.create_user "student" name id_ email =
      Except.ok (User.student ⟨name, id_, email, [], [], GPAStrategyT.regular⟩) ∧
    UserFactory.create_user "teacher" name id_ email =
      Except.ok (User.teacher ⟨name, id_, email, []⟩) ∧
    UserFactory.create_user "authority" name id_ email =
      Except.ok (User.authority ⟨name, id_, email⟩) ∧
    UserFactory.create_user role name id_ email = Except.error "Invalid user role" := by
  simp only [List.mem_cons, List.not_mem_nil, or_false, not_or] at h
  obtain ⟨h1, h2, h3⟩ := h
  refine ⟨by rw [UserFactory.create_user, if_pos rfl], ?_, ?_, ?_⟩
  · rw [UserFactory.create_user, if_neg (by decide), if_pos rfl]
  · rw [UserFactory.create_user, if_neg (by decide), if_neg (by decide), if_pos rfl]
  · rw [UserFactory.create_user, if_neg h1, if_neg h2, if_neg h3]

/-- Witness for C7 at the unknown role tag "admin". -/
theorem C7_create_user_dispatch_witness :
    UserFactory.create_user "admin" "Registrar" "A01" "admin@uni.edu" =
      Except.error "Invalid user role" :=
  (C7_create_user_dispatch "admin" "Registrar" "A01" "admin@uni.edu" (by decide)).2.2.2

/-- C2: `Teacher.assign_grade(s, code, v)` sets `s.grades[code] = v` and
notifies the student with the grade-assigned message exactly when `code`
is a key of the student's enrolled-courses dict; for a code `code₂` that
is not such a key, the whole student heap (hence the grade dict and all
other student state), the course heap and the notification log are left
unchanged and only the informational "not enrolled" message is printed.
In particular, in the demo world (enrolled only under "CSE110"), assigning
under the mismatched code "CSE101" leaves the grade dict empty and the
computed GPA at 0.0. -/
theorem C2_assign_grade_guard (w : World) (s : Nat) (code code₂ : String) (g g₂ : Grade)
    (h1 : code ∈ dictKeys (w.students s).courses)
    (h2 : code₂ ∉ dictKeys (w.students s).courses) :
    (((Teacher.assign_grade w s code g).students s).grades
        = dictInsert (w.students s).grades code g ∧
     dictLookup ((Teacher.assign_grade w s code g).students s).grades code = some g ∧
     (Teacher.assign_grade w s code g).log = w.log ++ [(s, Msg.gradeAssigned g code)] ∧
     (Teacher.assign_grade w s code g).console = w.console ∧
     (Teacher.assign_grade w s code g).courses = w.courses ∧
     (∀ s', s' ≠ s → (Teacher.assign_grade w s code g).students s' = w.students s') ∧
     ((Teacher.assign_grade w s code g).students s).courses = (w.students s).courses) ∧
    ((Teacher.assign_grade w s code₂ g₂).students = w.students ∧
     (Teacher.assign_grade w s code₂ g₂).log = w.log ∧
     (Teacher.assign_grade w s code₂ g₂).courses = w.courses ∧
     (Teacher.assign_grade w s code₂ g₂).console = w.console ++ [ConsoleMsg.notEnrolled]) ∧
    ((demoW2.students 0).grades = [] ∧ Student.calculate_gpa demoW2 0 = 0) := by
  refine ⟨?_, ?_, by decide⟩
  · rw [Teacher.assign_grade]
    rw [if_pos h1]
    refine ⟨by simp [updateFn], by simp [updateFn, dictLookup_insert_self], rfl, rfl, rfl,
            fun s' hs => by simp [updateFn, hs], by simp [updateFn]⟩
  · rw [Teacher.assign_grade, if_neg h2]
    exact ⟨rfl, rfl, rfl, rfl⟩

/-- Witness for C2 in the demo world after enrollment: "CSE110" is an
enrolled key, "CSE101" is not. -/
theorem C2_assign_grade_guard_witness :
    dictLookup ((Teacher.assign_grade demoW1 0 "CSE110" 4).students 0).grades "CSE110"
      = some 4 :=
  ((C2_assign_grade_guard demoW1 0 "CSE110" "CSE101" 4 4 (by decide) (by decide)).1).2.1

/-- C3 counterexample: in the demonstration scenario (enrolled under the
course's actual code "CSE110", grade then assigned under the mismatched
code "CSE101"), the grade is NOT recorded under "CSE101" — the grade dict
stays empty — refuting the claim that the assignment is accepted under the
different key. -/
theorem C3_counterexample_not_accepted :
    dictLookup (demoW2.students 0).grades "CSE101" = none ∧
    (demoW2.students 0).grades = [] := by
  decide

/-- C3 (amended): in the demonstration scenario the enrollment check
compares the provided code "CSE101" only against the keys of the student's
enrolled-courses dict; the only key is the enrolled course's actual code
"CSE110", so the check fails and the assignment is REJECTED: the student
object is unchanged, the grade dict stays empty, the GPA stays 0.0, no
notification is delivered, and only the informational "not enrolled"
message is printed. -/
theorem C3_amended_key_check_rejects :
    dictKeys (demoW1.students 0).courses = ["CSE110"] ∧
    "CSE101" ∉ dictKeys (demoW1.students 0).courses ∧
    demoW2.students 0 = demoW1.students 0 ∧
    (demoW2.students 0).grades = [] ∧
    Student.calculate_gpa demoW2 0 = 0 ∧
    demoW2.console = demoW1.console ++ [ConsoleMsg.notEnrolled] ∧
    demoW2.log = demoW1.log := by
  decide

/-- C4: enrolling an already-enrolled student a second time is idempotent.
When the course's code is already a key of the student's dict and the
student is already on the roster (the state reached by a first
enrollment), `Student.add_course` changes nothing but printing the
"already enrolled" message (roster size and enrolled-course count
unchanged), and `Course.add_student` performs no state change at all. -/
theorem C4_enroll_idempotent (w : World) (s c : Nat)
    (h1 : (w.courses c).course_code ∈ dictKeys (w.students s).courses)
    (h2 : s ∈ (w.courses c).students) :
    Student.add_course w s c
      = { w with console := w.console ++ [ConsoleMsg.alreadyEnrolled] } ∧
    ((Student.add_course w s c).courses c).students.length
      = (w.courses c).students.length ∧
    ((Student.add_course w s c).students s).courses.length
      = (w.students s).courses.length ∧
    Course.add_student w c s = w ∧
    ((Course.add_student w c s).courses c).students.length
      = (w.courses c).students.length := by
  have hmain : Student.add_course w s c
      = { w with console := w.console ++ [ConsoleMsg.alreadyEnrolled] } := by
    rw [Student.add_course, if_neg (not_not_intro h1)]
  have hcs : Course.add_student w c s = w := courseAdd_of_mem w c s h2
  refine ⟨hmain, by rw [hmain], by rw [hmain], hcs, by rw [hcs]⟩

/-- Witness for C4 in the demo world after the first enrollment: the
student holds key "CSE110" and is on the roster of course 0. -/
theorem C4_enroll_idempotent_witness :
    Course.add_student demoW1 0 0 = demoW1 :=
  (C4_enroll_idempotent demoW1 0 0 (by decide) (by decide)).2.2.2.1

/-- C8: for a student `s` on the roster of course `c` who is also a
subscriber, `Course.remove_student` removes (the first occurrence of) `s`
from the roster and delivers the "Dropped from {name}" message to every
subscriber, while the subscriber list of every course is left unchanged —
so `s` remains a subscriber, receives the drop notification itself, and
receives every subsequent notification of `c`; the student heap, the
console, and all other courses are untouched.  For a student `s₂` not on
the roster, `remove_student` changes nothing and emits nothing. -/
theorem C8_remove_student_keeps_subscriber (w : World) (c s s₂ : Nat)
    (h : s ∈ (w.courses c).students)
    (hobs : s ∈ (w.courses c).observers)
    (h₂ : s₂ ∉ (w.courses c).students) :
    ((Course.remove_student w c s).courses c).students
      = (w.courses c).students.erase s ∧
    (∀ c', ((Course.remove_student w c s).courses c').observers
      = (w.courses c').observers) ∧
    (Course.remove_student w c s).log
      = w.log ++ ((w.courses c).observers.map
          fun obs => (obs, Msg.droppedFrom (w.courses c).course_name)) ∧
    (Course.remove_student w c s).students = w.students ∧
    (Course.remove_student w c s).console = w.console ∧
    (∀ c', c' ≠ c → (Course.remove_student w c s).courses c' = w.courses c') ∧
    s ∈ ((Course.remove_student w c s).courses c).observers ∧
    (s, Msg.droppedFrom (w.courses c).course_name) ∈ (Course.remove_student w c s).log ∧
    (∀ m, (s, m) ∈ (Course.notify (Course.remove_student w c s) c m).log) ∧
    Course.remove_student w c s₂ = w := by
  have hroster := courseRemove_roster_self w c s h
  have hlog : (Course.remove_student w c s).log
      = w.log ++ ((w.courses c).observers.map
          fun obs => (obs, Msg.droppedFrom (w.courses c).course_name)) := by
    rw [Course.remove_student, if_pos h, notify_log]
    simp [updateFn]
  have hobs' : ∀ c', ((Course.remove_student w c s).courses c').observers
      = (w.courses c').observers := fun c' => courseRemove_observers w c s c'
  refine ⟨hroster, hobs', hlog, courseRemove_students w c s, courseRemove_console w c s,
          fun c' hc => courseRemove_roster_other w c s c' hc,
          by rw [hobs' c]; exact hobs, ?_, ?_, courseRemove_of_not_mem w c s₂ h₂⟩
  · rw [hlog]
    refine List.mem_append_right _ ?_
    exact List.mem_map_of_mem _ hobs
  · intro m
    rw [notify_log]
    refine List.mem_append_right _ ?_
    rw [hobs' c]
    exact List.mem_map_of_mem _ hobs

/-- Witness for C8 in the demo world: student 0 is on the roster and a
subscriber of course 0; student 1 is not on the roster. -/
theorem C8_remove_student_keeps_subscriber_witness :
    Course.remove_student demoW1 0 1 = demoW1 :=
  (C8_remove_student_keeps_subscriber demoW1 0 0 1 (by decide) (by decide)
    (by decide)).2.2.2.2.2.2.2.2.2

/-- C10: enrollment performed directly through `Course.add_student` is
one-sided: for a student not yet on the roster it appends the student to
the roster, subscribes the student (append to the observer list if not
already subscribed), and notifies all resulting subscribers, but the
student heap — in particular the student's enrolled-courses dict — is
completely unchanged.  Hence when the course's code was not a key of the
student's dict, afterwards the student is on the roster while the dict
still has no entry for the course: the bidirectional consistency that
`Student.add_course` establishes is not guaranteed by a direct
`Course.add_student` call. -/
theorem C10_course_add_one_sided (w : World) (c s : Nat)
    (h : s ∉ (w.courses c).students)
    (hkey : (w.courses c).course_code ∉ dictKeys (w.students s).courses) :
    ((Course.add_student w c s).courses c).students = (w.courses c).students ++ [s] ∧
    ((Course.add_student w c s).courses c).observers
      = (if s ∈ (w.courses c).observers then (w.courses c).observers
         else (w.courses c).observers ++ [s]) ∧
    (Course.add_student w c s).log
      = w.log ++ (((Course.add_student w c s).courses c).observers.map
          fun obs => (obs, Msg.enrolledIn (w.courses c).course_name)) ∧
    (Course.add_student w c s).students = w.students ∧
    ((Course.add_student w c s).students s).courses = (w.students s).courses ∧
    (Course.add_student w c s).console = w.console ∧
    s ∈ ((Course.add_student w c s).courses c).students ∧
    (w.courses c).course_code ∉ dictKeys ((Course.add_student w c s).students s).courses := by
  have hstu : (Course.add_student w c s).students = w.students := courseAdd_students w c s
  have hroster := courseAdd_roster_self w c s h
  refine ⟨hroster, ?_, ?_, hstu, by rw [hstu], courseAdd_console w c s,
          by rw [hroster]; simp, by rw [hstu]; exact hkey⟩
  · rw [Course.add_student, if_neg h, notify_courses, attach_observers]
    simp [updateFn]
  · rw [Course.add_student, if_neg h, notify_log, notify_courses, attach_log]

/-- Witness for C10 in the initial demo world: student 0 is not on the
(empty) roster of course 0 and "CSE110" is not a key of the (empty)
enrolled-courses dict. -/
theorem C10_course_add_one_sided_witness :
    ((Course.add_student demoW 0 0).students 0).courses = (demoW.students 0).courses :=
  (C10_course_add_one_sided demoW 0 0 (by decide) (by decide)).2.2.2.2.1

-- Helpers for the singleton model.

theorem getD_concat_length {α : Type} (l : List α) (a d : α) :
    (l ++ [a]).getD l.length d = a := by
  induction l with
  | nil => rfl
  | cons x xs ih => simp

theorem set_concat_length {α : Type} (l : List α) (a b : α) :
    (l ++ [a]).set l.length b = l ++ [b] := by
  induction l with
  | nil => rfl
  | cons x xs ih => simp

/-- C6: the university registry is a process-wide singleton.  Starting
from a process state in which `_instance` is still `None`, the first
construction allocates the instance with the three empty dicts, the second
construction returns the same reference and leaves the process state
unchanged (so every later construction also returns it), and a student
registered through the first reference is found through the reference the
second construction returns. -/
theorem C6_singleton_registry (p : PState) (hnone : p.instSlot = none) :
    (UniversitySystem.new (UniversitySystem.new p).2).1 = (UniversitySystem.new p).1 ∧
    (UniversitySystem.new (UniversitySystem.new p).2).2 = (UniversitySystem.new p).2 ∧
    ((UniversitySystem.new p).2).regAt (UniversitySystem.new p).1 = UniversitySystem.empty ∧
    (∀ pid sref,
      dictLookup (((((UniversitySystem.new p).2).setReg (UniversitySystem.new p).1
          (((((UniversitySystem.new p).2).regAt (UniversitySystem.new p).1)).add_student
            pid sref)).regAt
          (UniversitySystem.new (UniversitySystem.new p).2).1).students) pid
        = some sref) := by
  obtain ⟨heap, slot⟩ := p
  simp only at hnone
  subst hnone
  have hnew : UniversitySystem.new ⟨heap, none⟩
      = (heap.length, ⟨heap ++ [UniversitySystem.empty], some heap.length⟩) := rfl
  have hreg : (⟨heap ++ [UniversitySystem.empty], some heap.length⟩ : PState).regAt heap.length
      = UniversitySystem.empty := by
    rw [PState.regAt]
    exact getD_concat_length heap _ _
  refine ⟨rfl, rfl, by rw [hnew]; exact hreg, ?_⟩
  intro pid sref
  rw [hnew]
  simp only
  rw [hreg]
  rw [PState.setReg, PState.regAt]
  simp only
  rw [set_concat_length]
  have hidx : (UniversitySystem.new
      (⟨heap ++ [UniversitySystem.empty], some heap.length⟩ : PState)).1 = heap.length := rfl
  rw [hidx, getD_concat_length]
  rw [UniversitySystem.add_student]
  simp [UniversitySystem.empty, dictInsert, dictLookup]

/-- Witness for C6 at the fresh process state (empty heap, `_instance =
None`). -/
theorem C6_singleton_registry_witness :
    (UniversitySystem.new (UniversitySystem.new ⟨[], none⟩).2).1
      = (UniversitySystem.new (⟨[], none⟩ : PState)).1 :=
  (C6_singleton_registry ⟨[], none⟩ rfl).1

/-- After an overwriting `d[k] = v`, no key reaches the old value any
more, provided the old value was stored only under `k` and differs from
the new value. -/
theorem dictInsert_unreachable {α : Type} (d : List (String × α)) (k : String)
    (v old : α) (honce : ∀ e ∈ d, e.2 = old → e.1 = k) (hne : old ≠ v) :
    ∀ key, dictLookup (dictInsert d k v) key ≠ some old := by
  intro key hlook
  by_cases hkey : key = k
  · subst hkey
    rw [dictLookup_insert_self] at hlook
    exact hne (Option.some.inj hlook).symm
  · rw [dictLookup_insert_ne _ _ _ _ hkey] at hlook
    exact hkey (honce _ (dictLookup_mem _ _ _ hlook) rfl)

/-- C9 (implicit): the registry's add operations overwrite on a duplicate
key.  When the key is already present in the corresponding dict,
`add_student` / `add_teacher` / `add_course` replace the stored reference
in place: the dict's size is unchanged, lookup of the key yields the new
reference, and — provided the old reference was stored only under that key
and differs from the new one — the old reference is no longer reachable
from that dict by any key.  No message or error is produced (the
operations return only the updated registry record). -/
theorem C9_registry_overwrite (r : UniversitySystem) (k kt kc : String)
    (v vt vc old oldT oldC : Nat)
    (hkS : k ∈ dictKeys r.students)
    (hkT : kt ∈ dictKeys r.teachers)
    (hkC : kc ∈ dictKeys r.courses)
    (honce : ∀ e ∈ r.students, e.2 = old → e.1 = k)
    (honceT : ∀ e ∈ r.teachers, e.2 = oldT → e.1 = kt)
    (honceC : ∀ e ∈ r.courses, e.2 = oldC → e.1 = kc)
    (hne : old ≠ v) (hneT : oldT ≠ vt) (hneC : oldC ≠ vc) :
    ((r.add_student k v).students.length = r.students.length ∧
      dictLookup (r.add_student k v).students k = some v ∧
      (∀ key, dictLookup (r.add_student k v).students key ≠ some old)) ∧
    ((r.add_teacher kt vt).teachers.length = r.teachers.length ∧
      dictLookup (r.add_teacher kt vt).teachers kt = some vt ∧
      (∀ key, dictLookup (r.add_teacher kt vt).teachers key ≠ some oldT)) ∧
    ((r.add_course kc vc).courses.length = r.courses.length ∧
      dictLookup (r.add_course kc vc).courses kc = some vc ∧
      (∀ key, dictLookup (r.add_course kc vc).courses key ≠ some oldC)) :=
  ⟨⟨dictInsert_length_of_mem _ _ _ hkS, dictLookup_insert_self _ _ _,
      dictInsert_unreachable _ _ _ _ honce hne⟩,
   ⟨dictInsert_length_of_mem _ _ _ hkT, dictLookup_insert_self _ _ _,
      dictInsert_unreachable _ _ _ _ honceT hneT⟩,
   ⟨dictInsert_length_of_mem _ _ _ hkC, dictLookup_insert_self _ _ _,
      dictInsert_unreachable _ _ _ _ honceC hneC⟩⟩

/-- Witness for C9 at a one-entry-per-dict registry: re-adding under the
existing keys replaces the stored references. -/
theorem C9_registry_overwrite_witness :
    dictLookup ((UniversitySystem.mk [("S01", 5)] [("T01", 6)] [("CSE110", 7)]).add_student
      "S01" 8).students "S01" = some 8 :=
  ((C9_registry_overwrite ⟨[("S01", 5)], [("T01", 6)], [("CSE110", 7)]⟩
    "S01" "T01" "CSE110" 8 9 10 5 6 7 (by decide) (by decide) (by decide)
    (by decide) (by decide) (by decide) (by decide) (by decide) (by decide)).1).2.1

-- Machinery for claim C5 (bidirectional enrollment consistency).

theorem dictKeys_append {α : Type} (d e : List (String × α)) :
    dictKeys (d ++ e) = dictKeys d ++ dictKeys e :=
  List.map_append _ _ _

/-- The intermediate world after the dict-insert line of
`Student.add_course`, before the delegation to `Course.add_student`. -/
def w1add (w : World) (s c : Nat) : World :=
  let stu := w.students s
  let stu2 := { stu with courses := dictInsert stu.courses (w.courses c).course_code c }
  { w with students := updateFn w.students s stu2 }

theorem studentAdd_not_fresh (w : World) (s c : Nat)
    (h : (w.courses c).course_code ∈ dictKeys (w.students s).courses) :
    Student.add_course w s c
      = { w with console := w.console ++ [ConsoleMsg.alreadyEnrolled] } := by
  rw [Student.add_course, if_neg (not_not_intro h)]

theorem studentAdd_fresh (w : World) (s c : Nat)
    (h : (w.courses c).course_code ∉ dictKeys (w.students s).courses) :
    Student.add_course w s c = Course.add_student (w1add w s c) c s := by
  rw [Student.add_course, if_pos h]
  rfl

/-- The intermediate world after the dict-pop line of
`Student.drop_course`. -/
def w1drop (w : World) (s : Nat) (code : String) : World :=
  let stu := w.students s
  let stu2 := { stu with courses := dictPop stu.courses code }
  { w with students := updateFn w.students s stu2 }

theorem studentDrop_some (w : World) (s : Nat) (code : String) (c : Nat)
    (h : dictLookup (w.students s).courses code = some c) :
    Student.drop_course w s code = Course.remove_student (w1drop w s code) c s := by
  rw [Student.drop_course, h]
  rfl

theorem studentDrop_none (w : World) (s : Nat) (code : String)
    (h : dictLookup (w.students s).courses code = none) :
    Student.drop_course w s code
      = { w with console := w.console ++ [ConsoleMsg.courseNotFound] } := by
  rw [Student.drop_course, h]

theorem courseAdd_self_mem (w : World) (c s : Nat) :
    s ∈ ((Course.add_student w c s).courses c).students := by
  by_cases h : s ∈ (w.courses c).students
  · rw [courseAdd_of_mem w c s h]
    exact h
  · rw [courseAdd_roster_self w c s h]
    simp

theorem consistent_add_course (w : World) (s c : Nat) (hC : ConsistentW w s) :
    ConsistentW (Student.add_course w s c) s := by
  obtain ⟨hnd, hfwd, hrev, hros⟩ := hC
  by_cases hkey : (w.courses c).course_code ∈ dictKeys (w.students s).courses
  · rw [studentAdd_not_fresh w s c hkey]
    exact ⟨hnd, hfwd, hrev, hros⟩
  · rw [studentAdd_fresh w s c hkey]
    have hWs : ((w1add w s c).students s).courses
        = dictInsert (w.students s).courses (w.courses c).course_code c := by
      simp [w1add, updateFn]
    have hFs := courseAdd_students (w1add w s c) c s
    have hFsc : ((Course.add_student (w1add w s c) c s).students s).courses
        = (w.students s).courses ++ [((w.courses c).course_code, c)] := by
      rw [hFs, hWs]
      exact dictInsert_of_not_mem _ _ _ hkey
    have hFcode : ∀ c',
        ((Course.add_student (w1add w s c) c s).courses c').course_code
          = (w.courses c').course_code := by
      intro c'
      exact courseAdd_code (w1add w s c) c s c'
    refine ⟨?_, ?_, ?_, ?_⟩
    · rw [hFsc, dictKeys_append]
      simp only [dictKeys_cons, dictKeys_nil]
      simp [List.nodup_append, hnd, hkey]
    · intro e he
      rw [hFsc] at he
      rcases List.mem_append.mp he with h | h
      · refine ⟨by rw [hFcode e.2]; exact (hfwd e h).1, ?_⟩
        by_cases hc : e.2 = c
        · rw [hc]
          exact courseAdd_self_mem (w1add w s c) c s
        · rw [courseAdd_roster_other (w1add w s c) c s e.2 hc]
          exact (hfwd e h).2
      · rw [List.mem_singleton] at h
        subst h
        exact ⟨by rw [hFcode], courseAdd_self_mem (w1add w s c) c s⟩
    · intro c' hm
      by_cases hc : c' = c
      · subst hc
        rw [hFcode c', hFsc]
        exact List.mem_append_right _ (List.mem_singleton.mpr rfl)
      · rw [courseAdd_roster_other (w1add w s c) c s c' hc] at hm
        rw [hFcode c', hFsc]
        exact List.mem_append_left _ (hrev c' hm)
    · intro c'
      by_cases hc : c' = c
      · subst hc
        by_cases hm : s ∈ ((w1add w s c').courses c').students
        · rw [courseAdd_of_mem (w1add w s c') c' s hm]
          exact hros c'
        · rw [courseAdd_roster_self (w1add w s c') c' s hm]
          simp only [List.nodup_append]
          exact ⟨hros c', List.nodup_singleton s, by simpa using hm⟩
      · rw [courseAdd_roster_other (w1add w s c) c s c' hc]
        exact hros c'

theorem consistent_drop_course (w : World) (s : Nat) (code : String) (hC : ConsistentW w s) :
    ConsistentW (Student.drop_course w s code) s := by
  obtain ⟨hnd, hfwd, hrev, hros⟩ := hC
  cases hl : dictLookup (w.students s).courses code with
  | none =>
      rw [studentDrop_none w s code hl]
      exact ⟨hnd, hfwd, hrev, hros⟩
  | some c =>
      rw [studentDrop_some w s code c hl]
      have hentry : (code, c) ∈ (w.students s).courses := dictLookup_mem _ _ _ hl
      have hcC : code = (w.courses c).course_code := (hfwd _ hentry).1
      have hsm : s ∈ (w.courses c).students := (hfwd _ hentry).2
      have hWs : ((w1drop w s code).students s).courses
          = dictPop (w.students s).courses code := by
        simp [w1drop, updateFn]
      have hFs := courseRemove_students (w1drop w s code) c s
      have hFsc : ((Course.remove_student (w1drop w s code) c s).students s).courses
          = dictPop (w.students s).courses code := by
        rw [hFs, hWs]
      have hFcode : ∀ c',
          ((Course.remove_student (w1drop w s code) c s).courses c').course_code
            = (w.courses c').course_code := fun c' =>
        courseRemove_code (w1drop w s code) c s c'
      have hrosC : ((Course.remove_student (w1drop w s code) c s).courses c).students
          = (w.courses c).students.erase s :=
        courseRemove_roster_self (w1drop w s code) c s hsm
      have hrosO : ∀ c', c' ≠ c →
          ((Course.remove_student (w1drop w s code) c s).courses c')
            = (w.courses c') := fun c' hc =>
        courseRemove_roster_other (w1drop w s code) c s c' hc
      refine ⟨?_, ?_, ?_, ?_⟩
      · rw [hFsc]
        exact hnd.sublist (dictKeys_pop_sublist _ _)
      · intro e he
        rw [hFsc] at he
        have hin : e ∈ (w.students s).courses := dictPop_subset _ _ _ he
        have hnk : e.1 ≠ code := mem_dictPop_ne_key _ _ _ hnd he
        have hec : e.2 ≠ c := by
          intro hc
          apply hnk
          rw [(hfwd e hin).1, hc, ← hcC]
        refine ⟨by rw [hFcode e.2]; exact (hfwd e hin).1, ?_⟩
        rw [hrosO e.2 hec]
        exact (hfwd e hin).2
      · intro c' hm
        by_cases hc : c' = c
        · subst hc
          rw [hrosC] at hm
          exact absurd hm (hros c').not_mem_erase
        · rw [hrosO c' hc] at hm
          have hin := hrev c' hm
          rw [hFcode c', hFsc]
          refine mem_dictPop_of_ne _ _ _ hin ?_
          intro hkc
          apply hc
          have hkc2 : (w.courses c').course_code = code := hkc
          rw [hkc2] at hin
          exact dictKeys_nodup_value_eq _ code c' c hnd hin hentry
      · intro c'
        by_cases hc : c' = c
        · subst hc
          rw [hrosC]
          exact (hros c').erase s
        · rw [hrosO c' hc]
          exact hros c'

theorem add_course_fresh_once (w : World) (s c : Nat) (hC : ConsistentW w s)
    (hfresh : (w.courses c).course_code ∉ dictKeys (w.students s).courses) :
    ((Student.add_course w s c).courses c).students.count s = 1 ∧
    dictLookup ((Student.add_course w s c).students s).courses (w.courses c).course_code
      = some c ∧
    ((Student.add_course w s c).students s).courses.filter (fun e => e.2 == c)
      = [((w.courses c).course_code, c)] := by
  obtain ⟨hnd, hfwd, hrev, hros⟩ := hC
  have hsm : s ∉ (w.courses c).students := by
    intro hm
    exact hfresh (mem_keys_of_mem _ _ (hrev c hm))
  rw [studentAdd_fresh w s c hfresh]
  have hWs : ((w1add w s c).students s).courses
      = dictInsert (w.students s).courses (w.courses c).course_code c := by
    simp [w1add, updateFn]
  have hFs := courseAdd_students (w1add w s c) c s
  refine ⟨?_, ?_, ?_⟩
  · rw [courseAdd_roster_self (w1add w s c) c s hsm]
    have hWc : (w1add w s c).courses = w.courses := rfl
    rw [List.count_append, hWc, List.count_eq_zero.mpr hsm]
    simp
  · rw [hFs, hWs]
    exact dictLookup_insert_self _ _ _
  · rw [hFs, hWs, dictInsert_of_not_mem _ _ _ hfresh, List.filter_append]
    have hfil : (w.students s).courses.filter (fun e => e.2 == c) = [] := by
      refine List.filter_eq_nil_iff.mpr ?_
      intro e he
      simp only [beq_iff_eq]
      intro hec
      apply hfresh
      have h1 := (hfwd e he).1
      rw [hec] at h1
      rw [← h1]
      exact mem_keys_of_mem _ _ he
    rw [hfil]
    simp

/-- The initial demo world is consistent for student 0: every dict and
roster is empty. -/
theorem demo_consistent : ConsistentW demoW 0 := by
  refine ⟨?_, ?_, ?_, ?_⟩
  · simp [demoW, demoStudent]
  · intro e he
    simp [demoW, demoStudent] at he
  · intro c hm
    simp [demoW, demoCourse, Authority.create_course] at hm
  · intro c
    simp [demoW, demoCourse, Authority.create_course]

/-- C5: bidirectional enrollment consistency.  Starting from a consistent
state in which the course's code is not yet a key of the student's dict,
`Student.add_course` puts the student on the course's roster exactly once
and puts exactly one entry for the course — keyed by the course's code —
into the student's dict; moreover, from any consistent state, every
enrollment (`Student.add_course`, for any course) and every drop
(`Student.drop_course`, for any code) performed through the Student
operations re-establishes the membership agreement between the student's
enrolled-courses dict and every course's roster. -/
theorem C5_bidirectional_consistency (w : World) (s c : Nat) (hC : ConsistentW w s)
    (hfresh : (w.courses c).course_code ∉ dictKeys (w.students s).courses) :
    ((Student.add_course w s c).courses c).students.count s = 1 ∧
    ((Student.add_course w s c).students s).courses.filter (fun e => e.2 == c)
      = [((w.courses c).course_code, c)] ∧
    dictLookup ((Student.add_course w s c).students s).courses (w.courses c).course_code
      = some c ∧
    (∀ c', ConsistentW (Student.add_course w s c') s) ∧
    (∀ code, ConsistentW (Student.drop_course w s code) s) :=
  ⟨(add_course_fresh_once w s c hC hfresh).1,
   (add_course_fresh_once w s c hC hfresh).2.2,
   (add_course_fresh_once w s c hC hfresh).2.1,
   fun c' => consistent_add_course w s c' hC,
   fun code => consistent_drop_course w s code hC⟩

/-- Witness for C5 at the initial demo world (consistent, nothing enrolled
yet): after `add_course` the student is on the roster exactly once. -/
theorem C5_bidirectional_consistency_witness :
    ((Student.add_course demoW 0 0).courses 0).students.count 0 = 1 :=
  (C5_bidirectional_consistency demoW 0 0 demo_consistent (by decide)).1
